import Mathlib

/-!
# SoundMaxx worker core: a verification development

A shallow embedding of the hard core of the SoundMaxx audio-processing
worker (`worker/app/main.py`, `worker/app/processing.py`,
`worker/app/dataset.py`, `worker/app/training_orchestrator.py`), together
with theorems settling the specification claims about it.

Modelling conventions:
* Audio samples (`float32` in the code) are modelled as exact rationals;
  a decoded buffer (`read_audio_2d`, `always_2d=True`) is a list of
  frames, each a list of per-channel samples.
* The numpy real-FFT pair (`np.fft.rfft` / `np.fft.irfft`) is an external
  library call; it is abstracted as a structure (`FFTModel`) supplying the
  two transforms, while the frequency grid (`np.fft.rfftfreq`), the band
  masks, the mixing arithmetic and the peak limiter are modelled
  concretely.  `np.fft.rfftfreq n (1/sr)` is the rational grid
  `k * sr / n`.
* Filesystem and process state is passed explicitly; fallible code
  returns `Except`.
-/

/-- A decoded audio buffer: frames × channels, samples as exact rationals. -/
abbrev AudioBuf := List (List ℚ)

/-- Total number of samples, `numpy.ndarray.size`. -/
def audioSize (a : AudioBuf) : ℕ := a.flatten.length

/-- `numpy.ndarray.shape` of a (rectangular) 2-D buffer. -/
def audioShape (a : AudioBuf) : ℕ × ℕ := (a.length, (a.headD []).length)

/-- `float(np.max(np.abs(audio)))` (0 on an empty buffer, matching the
guarded uses in the code). -/
def audioAbsPeak (a : AudioBuf) : ℚ := (a.flatten.map (fun s => |s|)).foldr max 0

/-- Multiply every sample by a scalar (`audio * c`). -/
def audioScale (c : ℚ) (a : AudioBuf) : AudioBuf := a.map (List.map (fun s => s * c))

/-- Pointwise difference of two equally-shaped buffers (`a - b`). -/
def audioSub (a b : AudioBuf) : AudioBuf := List.zipWith (List.zipWith (fun x y => x - y)) a b

/-- Pointwise sum of two equally-shaped buffers (`a + b`). -/
def audioAdd (a b : AudioBuf) : AudioBuf := List.zipWith (List.zipWith (fun x y => x + y)) a b

/-- Mean of the absolute values of a sample list (`float(np.mean(np.abs(x)))`);
division by zero yields 0 for the empty list. -/
def meanAbs (l : List ℚ) : ℚ := (l.map (fun s => |s|)).sum / l.length

/-- `processing.limit_audio_peak`: scale the buffer down to the target peak
when its absolute peak exceeds it. -/
def limit_audio_peak (audio : AudioBuf) (target_peak : ℚ := 0.98) : AudioBuf :=
  if audioSize audio = 0 then audio
  else
    let peak := audioAbsPeak audio
    if target_peak < peak ∧ 0 < peak then audioScale (target_peak / peak) audio
    else audio

lemma flatten_map_map (f : ℚ → ℚ) (a : AudioBuf) :
    (a.map (List.map f)).flatten = a.flatten.map f :=
  (List.map_flatten f a).symm

lemma foldr_max_nonneg (l : List ℚ) : 0 ≤ (l.map (fun s => |s|)).foldr max 0 := by
  induction l with
  | nil => simp
  | cons x xs ih => simp only [List.map_cons, List.foldr_cons, le_max_iff]; exact Or.inr ih

lemma audioAbsPeak_nonneg (a : AudioBuf) : 0 ≤ audioAbsPeak a :=
  foldr_max_nonneg _

lemma foldr_max_map_mul (c : ℚ) (hc : 0 ≤ c) (l : List ℚ) :
    ((l.map (fun s => s * c)).map (fun s => |s|)).foldr max 0 =
      ((l.map (fun s => |s|)).foldr max 0) * c := by
  induction l with
  | nil => simp
  | cons x xs ih =>
    simp only [List.map_cons, List.foldr_cons, ih, abs_mul, abs_of_nonneg hc]
    exact (max_mul_of_nonneg _ _ hc).symm

lemma audioAbsPeak_scale (c : ℚ) (hc : 0 ≤ c) (a : AudioBuf) :
    audioAbsPeak (audioScale c a) = audioAbsPeak a * c := by
  unfold audioAbsPeak audioScale
  rw [flatten_map_map]
  exact foldr_max_map_mul c hc a.flatten

lemma audioSize_scale (c : ℚ) (a : AudioBuf) :
    audioSize (audioScale c a) = audioSize a := by
  unfold audioSize audioScale
  rw [flatten_map_map, List.length_map]

/-- **C7.** `limit_audio_peak` returns a buffer whose absolute peak is at
most 0.98 (exactly, in the rational model); a buffer already within the
target is returned unchanged; and the operation is idempotent. -/
theorem limit_audio_peak_spec (a : AudioBuf) :
    audioAbsPeak (limit_audio_peak a) ≤ 0.98
    ∧ (audioAbsPeak a ≤ 0.98 → limit_audio_peak a = a)
    ∧ limit_audio_peak (limit_audio_peak a) = limit_audio_peak a := by
  have hnn := audioAbsPeak_nonneg a
  by_cases hsz : audioSize a = 0
  · -- empty buffer: returned as-is, peak is 0
    have hempty : a.flatten = [] := by
      have := hsz
      unfold audioSize at this
      exact List.length_eq_zero.mp this
    have hpeak : audioAbsPeak a = 0 := by simp [audioAbsPeak, hempty]
    have hid : limit_audio_peak a = a := by simp [limit_audio_peak, hsz]
    refine ⟨?_, fun _ => hid, by rw [hid, hid]⟩
    rw [hid, hpeak]; norm_num
  · by_cases hpk : (0.98 : ℚ) < audioAbsPeak a
    · -- loud buffer: scaled so the new peak is exactly 0.98
      have hpos : (0 : ℚ) < audioAbsPeak a := lt_trans (by norm_num) hpk
      have hne : audioAbsPeak a ≠ 0 := ne_of_gt hpos
      have hc : (0 : ℚ) ≤ 0.98 / audioAbsPeak a := by positivity
      have hval : limit_audio_peak a = audioScale (0.98 / audioAbsPeak a) a := by
        simp [limit_audio_peak, hsz, hpk, hpos]
      have hnewpeak : audioAbsPeak (limit_audio_peak a) = 0.98 := by
        rw [hval, audioAbsPeak_scale _ hc, mul_div_cancel₀ _ hne]
      refine ⟨le_of_eq hnewpeak, fun hle => absurd hpk (not_lt.mpr hle), ?_⟩
      have hsz' : audioSize (limit_audio_peak a) ≠ 0 := by
        rw [hval, audioSize_scale]; exact hsz
      rw [limit_audio_peak, if_neg hsz']
      simp [hnewpeak]
    · -- quiet buffer: returned unchanged
      have hid : limit_audio_peak a = a := by
        simp [limit_audio_peak, hsz, hpk]
      exact ⟨by rw [hid]; exact not_lt.mp hpk, fun _ => hid, by rw [hid, hid]⟩

/-- Witness for C7 at the concrete one-sample buffer `[[0]]`. -/
theorem limit_audio_peak_spec_witness :
    audioAbsPeak [[(0 : ℚ)]] ≤ 0.98 ∧ limit_audio_peak [[(0 : ℚ)]] = [[(0 : ℚ)]] :=
  ⟨by norm_num [audioAbsPeak],
   (limit_audio_peak_spec [[(0 : ℚ)]]).2.1 (by norm_num [audioAbsPeak])⟩

/-! ## Mastering distinctness (`processing.mastered_audio_is_distinct`) -/

/-- An on-disk audio file as seen by `mastered_audio_is_distinct`: its
`stat().st_size` and the buffer/sample-rate pair decoded by
`read_audio_2d`. -/
structure AudioFile where
  sizeBytes : ℕ
  sr : ℕ
  audio : AudioBuf
deriving DecidableEq

/-- `processing.mastered_audio_is_distinct` (the `OSError` guard around the
size comparison is elided: `stat` is modelled as always succeeding). -/
def mastered_audio_is_distinct (source candidate : AudioFile) : Bool :=
  if source.sizeBytes ≠ candidate.sizeBytes then true
  else if source.sr ≠ candidate.sr then true
  else if audioShape source.audio ≠ audioShape candidate.audio then true
  else if audioSize source.audio = 0 ∨ audioSize candidate.audio = 0 then false
  else
    let mean_abs_delta := meanAbs (audioSub source.audio candidate.audio).flatten
    let baseline := meanAbs source.audio.flatten
    let relative_delta := mean_abs_delta / max baseline ((1e-8 : ℚ))
    decide ((1e-5 : ℚ) ≤ mean_abs_delta) || decide ((5e-4 : ℚ) ≤ relative_delta)

/-- The distinctness disjunction exactly as the specification words it
(file sizes differ, or sample rates differ, or shapes differ, or
`mean(|out − in|) ≥ 1e-5`, or `mean(|out − in|) / max(mean(|in|), 1e-8)
≥ 5e-4`). -/
def distinctPerSpec (source candidate : AudioFile) : Prop :=
  source.sizeBytes ≠ candidate.sizeBytes
  ∨ source.sr ≠ candidate.sr
  ∨ audioShape source.audio ≠ audioShape candidate.audio
  ∨ (1e-5 : ℚ) ≤ meanAbs (audioSub source.audio candidate.audio).flatten
  ∨ (5e-4 : ℚ) ≤ meanAbs (audioSub source.audio candidate.audio).flatten /
      max (meanAbs source.audio.flatten) ((1e-8 : ℚ))

lemma flatten_zipWith_left_nil (f : ℚ → ℚ → ℚ) (a b : AudioBuf) (h : a.flatten = []) :
    (List.zipWith (List.zipWith f) a b).flatten = [] := by
  induction a generalizing b with
  | nil => simp
  | cons r rs ih =>
    cases b with
    | nil => simp
    | cons s ss =>
      have hr : r = [] := by
        have := congrArg (List.take r.length) h
        simp [List.flatten_cons, List.take_append] at this
        exact List.eq_nil_of_length_eq_zero (by simp [this])
      have hrs : rs.flatten = [] := by
        simpa [List.flatten_cons, hr] using h
      simp [List.flatten_cons, hr, ih ss hrs]

lemma flatten_zipWith_right_nil (f : ℚ → ℚ → ℚ) (a b : AudioBuf) (h : b.flatten = []) :
    (List.zipWith (List.zipWith f) a b).flatten = [] := by
  induction a generalizing b with
  | nil => simp
  | cons r rs ih =>
    cases b with
    | nil => simp
    | cons s ss =>
      have hs : s = [] := by
        have := congrArg (List.take s.length) h
        simp [List.flatten_cons, List.take_append] at this
        exact List.eq_nil_of_length_eq_zero (by simp [this])
      have hss : ss.flatten = [] := by
        simpa [List.flatten_cons, hs] using h
      simp [List.flatten_cons, hs, ih ss hss]

/-- **C3, counterexample.**  Two files that both decode to empty buffers
but have different byte sizes: the code returns `true` (the size check
fires first), so "empty buffers are never distinct" is false as an
unconditional statement. -/
theorem mastered_audio_is_distinct_empty_counterexample :
    audioSize (AudioFile.mk 10 44100 []).audio = 0
    ∧ audioSize (AudioFile.mk 20 44100 []).audio = 0
    ∧ mastered_audio_is_distinct (AudioFile.mk 10 44100 []) (AudioFile.mk 20 44100 []) = true := by
  refine ⟨rfl, rfl, ?_⟩
  simp [mastered_audio_is_distinct]

/-- **C3, amended.**  `mastered_audio_is_distinct` returns `true` exactly
when the specification's disjunction holds (with the mean over an empty
buffer read as 0); and when sizes, sample rates and shapes all agree and a
decoded buffer is empty, the result is `false`. -/
theorem mastered_audio_is_distinct_spec (source candidate : AudioFile) :
    (mastered_audio_is_distinct source candidate = true ↔ distinctPerSpec source candidate)
    ∧ (source.sizeBytes = candidate.sizeBytes → source.sr = candidate.sr →
        audioShape source.audio = audioShape candidate.audio →
        (audioSize source.audio = 0 ∨ audioSize candidate.audio = 0) →
        mastered_audio_is_distinct source candidate = false) := by
  constructor
  · unfold mastered_audio_is_distinct distinctPerSpec
    by_cases h1 : source.sizeBytes ≠ candidate.sizeBytes
    · simp [h1]
    · by_cases h2 : source.sr ≠ candidate.sr
      · simp [h1, h2]
      · by_cases h3 : audioShape source.audio ≠ audioShape candidate.audio
        · simp [h1, h2, h3]
        · by_cases h4 : audioSize source.audio = 0 ∨ audioSize candidate.audio = 0
          · -- an empty buffer on either side: the code returns false, and
            -- the pointwise delta is empty so both numeric disjuncts are 0
            have hsub : (audioSub source.audio candidate.audio).flatten = [] := by
              rcases h4 with h | h
              · exact flatten_zipWith_left_nil _ _ _ (List.length_eq_zero.mp h)
              · exact flatten_zipWith_right_nil _ _ _ (List.length_eq_zero.mp h)
            have hmean : meanAbs (audioSub source.audio candidate.audio).flatten = 0 := by
              simp [hsub, meanAbs]
            have hrel :
                meanAbs (audioSub source.audio candidate.audio).flatten /
                  max (meanAbs source.audio.flatten) ((1e-8 : ℚ)) = 0 := by
              rw [hmean, zero_div]
            rw [if_neg h1, if_neg h2, if_neg h3, if_pos h4]
            constructor
            · intro hfalse
              simp at hfalse
            · rintro (h | h | h | h | h)
              · exact absurd h h1
              · exact absurd h h2
              · exact absurd h h3
              · rw [hmean] at h; norm_num at h
              · rw [hrel] at h; norm_num at h
          · simp [h1, h2, h3, h4]
  · intro e1 e2 e3 h4
    simp [mastered_audio_is_distinct, e1, e2, e3, h4]

/-- Witness for the amended C3 at a pair of identical empty files. -/
theorem mastered_audio_is_distinct_spec_witness :
    mastered_audio_is_distinct (AudioFile.mk 5 44100 []) (AudioFile.mk 5 44100 []) = false :=
  (mastered_audio_is_distinct_spec (AudioFile.mk 5 44100 []) (AudioFile.mk 5 44100 [])).2
    rfl rfl rfl (Or.inl rfl)

/-! ## Spectral band splitting and the stem timeout fallback -/

/-- The numpy real-FFT pair used by the code (`np.fft.rfft` /
`np.fft.irfft` along the frame axis), abstracted as an external library:
`rfft` maps a buffer to a list of spectral bins (each a list of
per-channel coefficients) and `irfft spectrum n` maps a spectrum back to
an `n`-frame buffer. -/
structure FFTModel (γ : Type) [Zero γ] where
  rfft : AudioBuf → List (List γ)
  irfft : List (List γ) → ℕ → AudioBuf

/-- `np.fft.rfftfreq frame_count (1/sample_rate)`: the rational frequency
grid `k * sr / n` for `k = 0, …, n/2`. -/
def rfftfreq (n : ℕ) (sr : ℚ) : List ℚ :=
  (List.range (n / 2 + 1)).map (fun k => (k : ℚ) * sr / n)

/-- `processing.render_stem_band_split`: zero all spectral bins whose
frequency is below `low_hz` or (when set) above `high_hz`, then transform
back to the original length. -/
def render_stem_band_split {γ : Type} [Zero γ] (M : FFTModel γ) (audio : AudioBuf)
    (sample_rate : ℚ) (low_hz : ℚ) (high_hz : Option ℚ) : AudioBuf :=
  let frame_count := audio.length
  if frame_count = 0 then audio.map (List.map (fun _ => (0 : ℚ)))
  else
    let spectrum := M.rfft audio
    let freqs := rfftfreq frame_count sample_rate
    let mask := freqs.map (fun f =>
      decide (low_hz ≤ f) && (match high_hz with
        | none => true
        | some h => decide (f ≤ h)))
    let filtered := List.zipWith
      (fun (keep : Bool) (row : List γ) => if keep then row else row.map (fun _ => (0 : γ)))
      mask spectrum
    M.irfft filtered frame_count

/-- A file produced by the stem fallback: a rendered WAV or the stems zip
(the zip records its entry names). -/
inductive FallbackFile where
  | wav (name : String) (content : AudioBuf)
  | zip (name : String) (entries : List String)
deriving DecidableEq

/-- The canonical `<inputStem>-<stemName>.wav` file name. -/
def stemFileName (input_stem stem_name : String) : String :=
  input_stem ++ "-" ++ stem_name ++ ".wav"

/-- `processing.build_stem_timeout_fallback`.  `input_stem` is
`input_file.stem`; the decoded source buffer and its sample rate stand in
for `read_audio_2d(input_file)`.  Writes are modelled by returning the
rendered file contents; the zip lists the stem file names (all rendered
stems exist, so all are bundled). -/
def build_stem_timeout_fallback {γ : Type} [Zero γ] (M : FFTModel γ) (input_stem : String)
    (audio : AudioBuf) (sample_rate : ℚ) (stems : ℤ) :
    Except String (String × List FallbackFile) :=
  if audioSize audio = 0 then .error "Cannot build stem fallback from empty source audio"
  else
    let bass_audio := render_stem_band_split M audio sample_rate 0 (some 180)
    let vocals_audio := render_stem_band_split M audio sample_rate 180 (some 4200)
    let drums_audio := render_stem_band_split M audio sample_rate 1200 (some 9500)
    let other_audio := audioSub (audioSub (audioSub audio vocals_audio) bass_audio) drums_audio
    let vocals_audio := limit_audio_peak vocals_audio
    let bass_audio := limit_audio_peak bass_audio
    let drums_audio := limit_audio_peak drums_audio
    let other_audio := limit_audio_peak other_audio
    let rendered : List (String × AudioBuf) :=
      if 4 ≤ stems then
        [("vocals", vocals_audio), ("drums", drums_audio),
         ("bass", bass_audio), ("other", other_audio)]
      else
        [("vocals", vocals_audio),
         ("accompaniment", limit_audio_peak (audioSub audio vocals_audio))]
    let outputs := rendered.map (fun p => FallbackFile.wav (stemFileName input_stem p.1) p.2)
    let zip_entries := rendered.map (fun p => stemFileName input_stem p.1)
    .ok ("fallback_band_split", outputs ++ [FallbackFile.zip (input_stem ++ "-stems.zip") zip_entries])

/-- **C2.** For a source with at least one sample and `stems ≥ 4`, the
timeout fallback reports model `fallback_band_split` and returns exactly
the four stem files for vocals, drums, bass and other followed
by `<inputStem>-stems.zip`, where bass is the band split to ≤ 180 Hz,
vocals to 180–4200 Hz, drums to 1200–9500 Hz and other is the source
minus vocals minus bass minus drums, each peak-limited. -/
theorem build_stem_timeout_fallback_four_stem_spec {γ : Type} [Zero γ] (M : FFTModel γ)
    (input_stem : String) (audio : AudioBuf) (sample_rate : ℚ) (stems : ℤ)
    (hsize : audioSize audio ≠ 0) (hstems : 4 ≤ stems) :
    build_stem_timeout_fallback M input_stem audio sample_rate stems =
      .ok ("fallback_band_split",
        [FallbackFile.wav (stemFileName input_stem "vocals")
            (limit_audio_peak (render_stem_band_split M audio sample_rate 180 (some 4200))),
         FallbackFile.wav (stemFileName input_stem "drums")
            (limit_audio_peak (render_stem_band_split M audio sample_rate 1200 (some 9500))),
         FallbackFile.wav (stemFileName input_stem "bass")
            (limit_audio_peak (render_stem_band_split M audio sample_rate 0 (some 180))),
         FallbackFile.wav (stemFileName input_stem "other")
            (limit_audio_peak (audioSub (audioSub
              (audioSub audio (render_stem_band_split M audio sample_rate 180 (some 4200)))
              (render_stem_band_split M audio sample_rate 0 (some 180)))
              (render_stem_band_split M audio sample_rate 1200 (some 9500)))),
         FallbackFile.zip (input_stem ++ "-stems.zip")
            [stemFileName input_stem "vocals", stemFileName input_stem "drums",
             stemFileName input_stem "bass", stemFileName input_stem "other"]]) := by
  unfold build_stem_timeout_fallback
  rw [if_neg hsize]
  simp only [if_pos hstems, List.map_cons, List.map_nil, List.cons_append, List.nil_append]

/-- A degenerate but legal spectral model over rational coefficients, used
only to instantiate witnesses. -/
def trivialFFT : FFTModel ℚ where
  rfft := fun a => a
  irfft := fun s _ => s

/-- Witness for C2 at a one-sample source and `stems = 4`. -/
theorem build_stem_timeout_fallback_four_stem_spec_witness :
    audioSize [[(1 : ℚ)]] ≠ 0 ∧ (4 : ℤ) ≤ 4 ∧
    build_stem_timeout_fallback trivialFFT "input" [[(1 : ℚ)]] 44100 4 =
      .ok ("fallback_band_split",
        [FallbackFile.wav (stemFileName "input" "vocals")
            (limit_audio_peak (render_stem_band_split trivialFFT [[(1 : ℚ)]] 44100 180 (some 4200))),
         FallbackFile.wav (stemFileName "input" "drums")
            (limit_audio_peak (render_stem_band_split trivialFFT [[(1 : ℚ)]] 44100 1200 (some 9500))),
         FallbackFile.wav (stemFileName "input" "bass")
            (limit_audio_peak (render_stem_band_split trivialFFT [[(1 : ℚ)]] 44100 0 (some 180))),
         FallbackFile.wav (stemFileName "input" "other")
            (limit_audio_peak (audioSub (audioSub
              (audioSub [[(1 : ℚ)]] (render_stem_band_split trivialFFT [[(1 : ℚ)]] 44100 180 (some 4200)))
              (render_stem_band_split trivialFFT [[(1 : ℚ)]] 44100 0 (some 180)))
              (render_stem_band_split trivialFFT [[(1 : ℚ)]] 44100 1200 (some 9500)))),
         FallbackFile.zip ("input" ++ "-stems.zip")
            [stemFileName "input" "vocals", stemFileName "input" "drums",
             stemFileName "input" "bass", stemFileName "input" "other"]]) :=
  ⟨by decide, by decide,
   build_stem_timeout_fallback_four_stem_spec trivialFFT "input" [[(1 : ℚ)]] 44100 4
     (by decide) (by decide)⟩

/-! ## Stem canonicalization (`processing.canonicalize_stem_outputs`) -/

/-- A produced (and existing) separator output file: its `Path.stem`
(file name without extension) plus the decoded buffer and sample rate. -/
structure ProducedFile where
  name : String
  audio : AudioBuf
  sr : ℚ
deriving DecidableEq

/-- Python's `needle in haystack` on character lists. -/
def hasSubstr (needle : List Char) : List Char → Bool
  | [] => needle.isPrefixOf []
  | c :: rest => needle.isPrefixOf (c :: rest) || hasSubstr needle rest

/-- `processing.STEM_ORDER_4`. -/
def STEM_ORDER_4 : List String := ["vocals", "drums", "bass", "other"]

/-- `processing.STEM_KEYWORDS`. -/
def STEM_KEYWORDS (stem : String) : List String :=
  match stem with
  | "vocals" => ["vocals", "vocal", "vox", "voice", "lead"]
  | "drums" => ["drums", "drum", "percussion", "beat", "kick", "snare"]
  | "bass" => ["bass", "low", "sub"]
  | "other" => ["other", "music", "instrumental", "inst", "accompaniment"]
  | "accompaniment" =>
      ["accompaniment", "instrumental", "inst", "music", "other", "minus_vocals", "no_vocals"]
  | _ => []

/-- ASCII lower-casing of one character (`str.lower`; the stems and
keywords involved are ASCII). -/
def charLower (c : Char) : Char :=
  if 'A' ≤ c ∧ c ≤ 'Z' then Char.ofNat (c.toNat + 32) else c

/-- `str.lower()` as a character list. -/
def pyLower (s : String) : List Char := s.toList.map charLower

/-- `processing.first_matching_path`: the first file whose lower-cased stem
contains one of the (lower-cased) keywords. -/
def first_matching_path (paths : List ProducedFile) (keywords : List String) :
    Option ProducedFile :=
  let lowered := keywords.map pyLower
  paths.find? (fun p => lowered.any (fun kw => hasSubstr kw (pyLower p.name)))

/-- The four-stem greedy assignment loop of `canonicalize_stem_outputs`:
traverse the stem order, give each stem the first remaining match and
remove it from the pool.  Returns the assignment and the leftover pool. -/
def greedyAssign : List String → List ProducedFile →
    List (String × ProducedFile) × List ProducedFile
  | [], remaining => ([], remaining)
  | stem :: rest, remaining =>
    match first_matching_path remaining (STEM_KEYWORDS stem) with
    | some c =>
      let step := greedyAssign rest (remaining.erase c)
      ((stem, c) :: step.1, step.2)
    | none => greedyAssign rest remaining

/-- Lookup in an association list (a Python dict with string keys). -/
def listLookup {α : Type} (l : List (String × α)) (k : String) : Option α :=
  (l.find? (fun p => p.1 == k)).map (·.2)

/-- The `missing` list after the greedy pass. -/
def missingAfterGreedy (existing : List ProducedFile) : List String :=
  STEM_ORDER_4.filter
    (fun s => !((greedyAssign STEM_ORDER_4 existing).1.any (fun p => p.1 == s)))

/-- The errors `canonicalize_stem_outputs` and its helpers can raise. -/
inductive CanonError where
  | noFiles
  | missingStems (stems : List String)
  | emptyAccompaniment
  | noVocalsTwoStem
  | noAccompanimentTwoStem
  | noSourceStems
  | mixedSampleRates
  | emptyMix
deriving DecidableEq

/-- Number of channels of a buffer (`shape[1]` of an `always_2d` array). -/
def audioChannels (a : AudioBuf) : ℕ := (a.headD []).length

/-- Zero-pad a buffer into a `frames × channels` frame
(`framed[:h, :w] = layer` on a zero array). -/
def padTo (frames channels : ℕ) (a : AudioBuf) : AudioBuf :=
  (List.range frames).map (fun i =>
    (List.range channels).map (fun j => ((a.getD i []).getD j 0)))

/-- `processing.render_accompaniment_mix`: sum all layers zero-padded to
the common size, then scale down to a 0.98 peak when needed. -/
def render_accompaniment_mix (paths : List ProducedFile) : Except CanonError AudioBuf :=
  match paths with
  | [] => .error .noSourceStems
  | p0 :: rest =>
    if rest.any (fun p => p.sr != p0.sr) then .error .mixedSampleRates
    else
      let layers := (p0 :: rest).map (·.audio)
      let max_frames := (layers.map List.length).foldr max 0
      let max_channels := (layers.map audioChannels).foldr max 1
      if max_frames = 0 then .error .emptyMix
      else
        let mix := layers.foldl (fun acc l => audioAdd acc (padTo max_frames max_channels l))
          (padTo max_frames max_channels [])
        let peak := audioAbsPeak mix
        .ok (if (0.98 : ℚ) < peak then audioScale (0.98 / peak) mix else mix)

/-- `processing.synthesize_four_stems_from_accompaniment`.  The vocals
copy (`write_audio_copy`) is content-preserving and happens before the
empty-accompaniment check; only the resulting stem contents are modelled.
Bass keeps the accompaniment spectrum at ≤ 200 Hz, drums the 1500–9000 Hz
band, other is the accompaniment minus both; bass, drums and other are
peak-limited. -/
def synthesize_four_stems_from_accompaniment {γ : Type} [Zero γ] (M : FFTModel γ)
    (vocals_source accompaniment_source : ProducedFile) :
    Except CanonError (List (String × AudioBuf)) :=
  if audioSize accompaniment_source.audio = 0 then .error .emptyAccompaniment
  else
    let acc := accompaniment_source.audio
    let frame_count := acc.length
    let spectrum := M.rfft acc
    let freqs := rfftfreq frame_count accompaniment_source.sr
    let bass_spec := List.zipWith
      (fun (f : ℚ) (row : List γ) => if (200 : ℚ) < f then row.map (fun _ => (0 : γ)) else row)
      freqs spectrum
    let bass_audio := M.irfft bass_spec frame_count
    let drums_spec := List.zipWith
      (fun (f : ℚ) (row : List γ) =>
        if f < (1500 : ℚ) ∨ (9000 : ℚ) < f then row.map (fun _ => (0 : γ)) else row)
      freqs spectrum
    let drums_audio := M.irfft drums_spec frame_count
    let other_audio := audioSub (audioSub acc bass_audio) drums_audio
    .ok [("vocals", vocals_source.audio),
         ("drums", limit_audio_peak drums_audio),
         ("bass", limit_audio_peak bass_audio),
         ("other", limit_audio_peak other_audio)]

/-- The final copy loop of the four-stem branch: emit the canonical
`<inputStem>-<stem>.wav` targets in stem order with the mapped contents. -/
def orderedStemOutputs (input_stem : String) (mapped : List (String × AudioBuf)) :
    List (String × AudioBuf) :=
  STEM_ORDER_4.filterMap (fun s =>
    (listLookup mapped s).map (fun content => (stemFileName input_stem s, content)))

/-- `processing.canonicalize_stem_outputs` over the existing produced
files (`produced` stands for the code's `existing` list; copies preserve
content, and outputs are returned as name/content pairs). -/
def canonicalize_stem_outputs {γ : Type} [Zero γ] (M : FFTModel γ) (input_stem : String)
    (produced : List ProducedFile) (stems : ℤ) :
    Except CanonError (List (String × AudioBuf)) :=
  if produced.isEmpty then .error .noFiles
  else if 4 ≤ stems then
    let mapped := (greedyAssign STEM_ORDER_4 produced).1
    let missing := missingAfterGreedy produced
    if missing.isEmpty then
      .ok (orderedStemOutputs input_stem
        (mapped.map (fun p => (p.1, p.2.audio))))
    else
      let vocals_source := match listLookup mapped "vocals" with
        | some v => some v
        | none => first_matching_path produced (STEM_KEYWORDS "vocals")
      let accompaniment_source := first_matching_path produced (STEM_KEYWORDS "accompaniment")
      match vocals_source, accompaniment_source with
      | some v, some a =>
        (synthesize_four_stems_from_accompaniment M v a).map
          (fun synth => orderedStemOutputs input_stem synth)
      | _, _ => .error (.missingStems missing)
  else
    match first_matching_path produced (STEM_KEYWORDS "vocals") with
    | none => .error .noVocalsTwoStem
    | some v =>
      let remaining := produced.filter (fun p => p != v)
      let vocals_out := (stemFileName input_stem "vocals", v.audio)
      match first_matching_path remaining (STEM_KEYWORDS "accompaniment") with
      | some a => .ok [vocals_out, (stemFileName input_stem "accompaniment", a.audio)]
      | none =>
        if remaining.isEmpty then .error .noAccompanimentTwoStem
        else (render_accompaniment_mix remaining).map
          (fun mix => [vocals_out, (stemFileName input_stem "accompaniment", mix)])

lemma greedyAssign_keys {stems : List String} {rem : List ProducedFile} :
    ∀ p ∈ (greedyAssign stems rem).1, p.1 ∈ stems := by
  induction stems generalizing rem with
  | nil => intro p hp; simp [greedyAssign] at hp
  | cons s rest ih =>
    intro p hp
    unfold greedyAssign at hp
    cases hfm : first_matching_path rem (STEM_KEYWORDS s) with
    | some c =>
      rw [hfm] at hp
      rcases List.mem_cons.mp hp with h | h
      · subst h; exact List.mem_cons_self _ _
      · exact List.mem_cons_of_mem _ (ih _ h)
    | none =>
      rw [hfm] at hp
      exact List.mem_cons_of_mem _ (ih _ hp)

/-- The vocals entry of the greedy assignment is exactly the first vocals
keyword match over the whole pool (vocals is first in the stem order). -/
lemma greedy_vocals_lookup (existing : List ProducedFile) :
    listLookup (greedyAssign STEM_ORDER_4 existing).1 "vocals" =
      first_matching_path existing (STEM_KEYWORDS "vocals") := by
  unfold STEM_ORDER_4 greedyAssign
  cases hfm : first_matching_path existing (STEM_KEYWORDS "vocals") with
  | some c => simp [listLookup]
  | none =>
    have hmem := @greedyAssign_keys ["drums", "bass", "other"] existing
    rcases hfind : ( (greedyAssign ["drums", "bass", "other"] existing).1.find?
        (fun p => p.1 == "vocals")) with _ | ⟨p⟩
    · simp [listLookup, hfind]
    · have hp := List.find?_some hfind
      have hmemp := List.mem_of_find?_eq_some hfind
      have : p.1 = "vocals" := by simpa using hp
      have := hmem p hmemp
      rw [‹p.1 = "vocals"›] at this
      simp [STEM_KEYWORDS] at this

/-- Unfolding of the four-stem branch of `canonicalize_stem_outputs`. -/
lemma canonicalize_four_unfold {γ : Type} [Zero γ] (M : FFTModel γ) (input_stem : String)
    (produced : List ProducedFile) (stems : ℤ)
    (hne : produced.isEmpty = false) (hstems : 4 ≤ stems) :
    canonicalize_stem_outputs M input_stem produced stems =
      if missingAfterGreedy produced = [] then
        .ok (orderedStemOutputs input_stem
          ((greedyAssign STEM_ORDER_4 produced).1.map (fun p => (p.1, p.2.audio))))
      else
        match first_matching_path produced (STEM_KEYWORDS "vocals"),
              first_matching_path produced (STEM_KEYWORDS "accompaniment") with
        | some v, some a =>
          (synthesize_four_stems_from_accompaniment M v a).map
            (fun synth => orderedStemOutputs input_stem synth)
        | _, _ => .error (.missingStems (missingAfterGreedy produced)) := by
  unfold canonicalize_stem_outputs
  rw [hne]
  simp only [Bool.false_eq_true, if_false, if_pos hstems]
  by_cases hm : missingAfterGreedy produced = []
  · rw [if_pos hm]
    have : (missingAfterGreedy produced).isEmpty = true := by rw [hm]; rfl
    rw [this]
    simp
  · rw [if_neg hm]
    have hie : (missingAfterGreedy produced).isEmpty = false := by
      cases hmm : missingAfterGreedy produced with
      | nil => exact absurd hmm hm
      | cons x xs => rfl
    rw [hie]
    simp only [Bool.false_eq_true, if_false]
    rw [greedy_vocals_lookup]
    cases hv : first_matching_path produced (STEM_KEYWORDS "vocals") with
    | some v =>
      cases ha : first_matching_path produced (STEM_KEYWORDS "accompaniment") with
      | some a => rfl
      | none => rfl
    | none =>
      cases ha : first_matching_path produced (STEM_KEYWORDS "accompaniment") with
      | some a => rfl
      | none => rfl

/-- **C5, amended.**  In four-stem mode, over a nonempty list of produced
files: the call fails with the missing-stems error exactly when the
greedy assignment leaves a stem unassigned and no produced file matches
the vocals keywords or none matches the accompaniment keywords; and when
a stem is unassigned, both matches exist and the accompaniment's decoded
audio is nonempty, all four stems are obtained by synthesis from
vocals + accompaniment and the call succeeds. -/
theorem canonicalize_stem_outputs_four_stem_spec {γ : Type} [Zero γ] (M : FFTModel γ)
    (input_stem : String) (produced : List ProducedFile) (stems : ℤ)
    (hne : produced ≠ []) (hstems : 4 ≤ stems) :
    (canonicalize_stem_outputs M input_stem produced stems =
        .error (.missingStems (missingAfterGreedy produced)) ↔
      (missingAfterGreedy produced ≠ [] ∧
        (first_matching_path produced (STEM_KEYWORDS "vocals") = none ∨
         first_matching_path produced (STEM_KEYWORDS "accompaniment") = none)))
    ∧ (∀ v a, missingAfterGreedy produced ≠ [] →
        first_matching_path produced (STEM_KEYWORDS "vocals") = some v →
        first_matching_path produced (STEM_KEYWORDS "accompaniment") = some a →
        audioSize a.audio ≠ 0 →
        ∃ synth, synthesize_four_stems_from_accompaniment M v a = .ok synth
          ∧ synth.map Prod.fst = STEM_ORDER_4
          ∧ canonicalize_stem_outputs M input_stem produced stems =
              .ok (orderedStemOutputs input_stem synth)) := by
  have hie : produced.isEmpty = false := by
    cases produced with
    | nil => exact absurd rfl hne
    | cons p ps => rfl
  rw [canonicalize_four_unfold M input_stem produced stems hie hstems]
  by_cases hm : missingAfterGreedy produced = []
  · rw [if_pos hm]
    refine ⟨⟨fun h => by simp at h, fun h => absurd hm h.1⟩, ?_⟩
    intro v a hmiss _ _ _
    exact absurd hm hmiss
  · rw [if_neg hm]
    constructor
    · cases hv : first_matching_path produced (STEM_KEYWORDS "vocals") with
      | some v =>
        cases ha : first_matching_path produced (STEM_KEYWORDS "accompaniment") with
        | some a =>
          -- the synthesis path: its result is never a missing-stems error
          constructor
          · intro h
            have h' : Except.map (fun synth => orderedStemOutputs input_stem synth)
                (synthesize_four_stems_from_accompaniment M v a) =
                Except.error (CanonError.missingStems (missingAfterGreedy produced)) := h
            cases hs : synthesize_four_stems_from_accompaniment M v a with
            | ok synth => rw [hs] at h'; simp [Except.map] at h'
            | error e =>
              rw [hs] at h'
              simp only [Except.map] at h'
              have he : e = CanonError.missingStems (missingAfterGreedy produced) := by
                cases h'; rfl
              -- synthesize only raises the empty-accompaniment error
              unfold synthesize_four_stems_from_accompaniment at hs
              by_cases hsz : audioSize a.audio = 0
              · rw [if_pos hsz] at hs
                cases hs; cases he
              · rw [if_neg hsz] at hs; cases hs
          · rintro ⟨_, h | h⟩
            · cases h
            · cases h
        | none =>
          exact ⟨fun _ => ⟨hm, Or.inr rfl⟩, fun _ => rfl⟩
      | none =>
        cases ha : first_matching_path produced (STEM_KEYWORDS "accompaniment") with
        | some a => exact ⟨fun _ => ⟨hm, Or.inl rfl⟩, fun _ => rfl⟩
        | none => exact ⟨fun _ => ⟨hm, Or.inl rfl⟩, fun _ => rfl⟩
    · intro v a hmiss hv ha hsz
      rw [hv, ha]
      cases hs : synthesize_four_stems_from_accompaniment M v a with
      | error e =>
        unfold synthesize_four_stems_from_accompaniment at hs
        rw [if_neg hsz] at hs
        cases hs
      | ok synth =>
        refine ⟨synth, rfl, ?_, ?_⟩
        · unfold synthesize_four_stems_from_accompaniment at hs
          rw [if_neg hsz] at hs
          cases hs
          rfl
        · have : Except.map (fun s => orderedStemOutputs input_stem s)
              (synthesize_four_stems_from_accompaniment M v a) =
              .ok (orderedStemOutputs input_stem synth) := by
            rw [hs]; rfl
          exact this

/-- **C5, counterexample.**  Produced files `vocals` (one sample) and
`accompaniment` (decoding to an empty buffer): the greedy pass leaves
drums and bass unassigned, a vocals match and an accompaniment match both
exist, yet the call fails (with the empty-accompaniment synthesis error)
instead of succeeding.  Additionally, on the empty produced list the call
fails with the no-files error — not one listing the missing stems —
although stems are unassigned and no vocals match exists, so the claimed
equivalence also fails there. -/
theorem canonicalize_stem_outputs_empty_accompaniment_counterexample :
    canonicalize_stem_outputs trivialFFT "input" [] 4 = .error CanonError.noFiles
    ∧ missingAfterGreedy ([] : List ProducedFile) ≠ []
    ∧ first_matching_path [] (STEM_KEYWORDS "vocals") = none
    ∧
    missingAfterGreedy
        [ProducedFile.mk "vocals" [[(1 : ℚ)]] 44100,
         ProducedFile.mk "accompaniment" [] 44100] ≠ []
    ∧ first_matching_path
        [ProducedFile.mk "vocals" [[(1 : ℚ)]] 44100,
         ProducedFile.mk "accompaniment" [] 44100] (STEM_KEYWORDS "vocals") =
        some (ProducedFile.mk "vocals" [[(1 : ℚ)]] 44100)
    ∧ first_matching_path
        [ProducedFile.mk "vocals" [[(1 : ℚ)]] 44100,
         ProducedFile.mk "accompaniment" [] 44100] (STEM_KEYWORDS "accompaniment") =
        some (ProducedFile.mk "accompaniment" [] 44100)
    ∧ canonicalize_stem_outputs trivialFFT "input"
        [ProducedFile.mk "vocals" [[(1 : ℚ)]] 44100,
         ProducedFile.mk "accompaniment" [] 44100] 4 =
        .error CanonError.emptyAccompaniment := by
  refine ⟨rfl, by decide, rfl, by decide, rfl, rfl, rfl⟩

/-- Witness for the amended C5: the same configuration but with a
nonempty accompaniment buffer synthesizes all four stems. -/
theorem canonicalize_stem_outputs_four_stem_spec_witness :
    missingAfterGreedy
        [ProducedFile.mk "vocals" [[(1 : ℚ)]] 44100,
         ProducedFile.mk "accompaniment" [[(1 : ℚ)]] 44100] ≠ []
    ∧ (∃ synth,
        synthesize_four_stems_from_accompaniment trivialFFT
          (ProducedFile.mk "vocals" [[(1 : ℚ)]] 44100)
          (ProducedFile.mk "accompaniment" [[(1 : ℚ)]] 44100) = .ok synth
        ∧ synth.map Prod.fst = STEM_ORDER_4
        ∧ canonicalize_stem_outputs trivialFFT "input"
            [ProducedFile.mk "vocals" [[(1 : ℚ)]] 44100,
             ProducedFile.mk "accompaniment" [[(1 : ℚ)]] 44100] 4 =
            .ok (orderedStemOutputs "input" synth)) :=
  ⟨by decide,
   (canonicalize_stem_outputs_four_stem_spec trivialFFT "input"
      [ProducedFile.mk "vocals" [[(1 : ℚ)]] 44100,
       ProducedFile.mk "accompaniment" [[(1 : ℚ)]] 44100] 4
      (by decide) (by decide)).2
    (ProducedFile.mk "vocals" [[(1 : ℚ)]] 44100)
    (ProducedFile.mk "accompaniment" [[(1 : ℚ)]] 44100)
    (by decide) (by decide) (by decide) (by decide)⟩

/-! ## Source cache pruning (`main.prune_source_cache`) -/

/-- A regular file in the source cache root: name, `st_mtime`, `st_size`. -/
structure CacheFile where
  name : String
  mtime : ℤ
  size : ℕ
deriving DecidableEq

/-- Whether a name carries the temp marker (`".tmp-" in entry.name`). -/
def isTempName (s : String) : Bool := hasSubstr ".tmp-".toList s.toList

/-- The temp marker check on a cache file. -/
def isTempFile (f : CacheFile) : Bool := isTempName f.name

/-- The eviction loop of `prune_source_cache`: while the count or byte
caps (each active only when positive) are exceeded, pop and delete the
oldest file, decrementing the counters.  Deletions are modelled as always
succeeding.  Returns (evicted, kept). -/
def pruneLoop (maxFiles maxBytes : ℕ) :
    List CacheFile → ℕ → ℕ → List CacheFile × List CacheFile
  | [], _, _ => ([], [])
  | f :: rest, count, total =>
    if (0 < maxFiles ∧ maxFiles < count) ∨ (0 < maxBytes ∧ maxBytes < total) then
      let step := pruneLoop maxFiles maxBytes rest (count - 1) (total - f.size)
      (f :: step.1, step.2)
    else ([], f :: rest)

/-- `main.prune_source_cache` on an explicit cache state: skip temp files,
sort the rest ascending by modification time, run the eviction loop, and
return the surviving cache contents.  The caps correspond to
`SOURCE_CACHE_MAX_FILES` / `SOURCE_CACHE_MAX_BYTES` (`env_int` keeps them
non-negative). -/
def prune_source_cache (maxFiles maxBytes : ℕ) (cache : List CacheFile) : List CacheFile :=
  if maxBytes = 0 ∧ maxFiles = 0 then cache
  else
    let files := (cache.filter (fun f => !isTempFile f)).mergeSort
      (fun a b => decide (a.mtime ≤ b.mtime))
    let total := (files.map (·.size)).sum
    cache.filter (fun f => isTempFile f) ++ (pruneLoop maxFiles maxBytes files files.length total).2

lemma pruneLoop_spec (maxFiles maxBytes : ℕ) (l : List CacheFile) :
    (pruneLoop maxFiles maxBytes l l.length ((l.map (·.size)).sum)).1 ++
        (pruneLoop maxFiles maxBytes l l.length ((l.map (·.size)).sum)).2 = l
    ∧ (0 < maxFiles →
        (pruneLoop maxFiles maxBytes l l.length ((l.map (·.size)).sum)).2.length ≤ maxFiles)
    ∧ (0 < maxBytes →
        (((pruneLoop maxFiles maxBytes l l.length ((l.map (·.size)).sum)).2.map (·.size)).sum
          ≤ maxBytes)) := by
  induction l with
  | nil =>
    refine ⟨rfl, fun _ => by simp [pruneLoop], fun _ => by simp [pruneLoop]⟩
  | cons f rest ih =>
    by_cases hcond : (0 < maxFiles ∧ maxFiles < (f :: rest).length)
        ∨ (0 < maxBytes ∧ maxBytes < (((f :: rest).map (·.size)).sum))
    · have hstep :
          pruneLoop maxFiles maxBytes (f :: rest) (f :: rest).length
              (((f :: rest).map (·.size)).sum) =
            ((f :: (pruneLoop maxFiles maxBytes rest rest.length ((rest.map (·.size)).sum)).1),
             (pruneLoop maxFiles maxBytes rest rest.length ((rest.map (·.size)).sum)).2) := by
        conv_lhs => rw [pruneLoop]
        rw [if_pos hcond]
        have h1 : (f :: rest).length - 1 = rest.length := by simp
        have h2 : ((f :: rest).map (·.size)).sum - f.size = (rest.map (·.size)).sum := by
          simp
        rw [h1, h2]
      rw [hstep]
      exact ⟨by simp [ih.1], ih.2.1, ih.2.2⟩
    · have hstep :
          pruneLoop maxFiles maxBytes (f :: rest) (f :: rest).length
              (((f :: rest).map (·.size)).sum) =
            ([], f :: rest) := by
        conv_lhs => rw [pruneLoop]
        rw [if_neg hcond]
      rw [hstep]
      push_neg at hcond
      refine ⟨rfl, fun hf => ?_, fun hb => ?_⟩
      · exact le_of_not_lt (fun hlt => absurd hlt (by simpa using (hcond.1 hf)))
      · exact le_of_not_lt (fun hlt => absurd hlt (by simpa using (hcond.2 hb)))

/-- **C4.**  After `prune_source_cache` (all deletions succeeding, as the
model assumes), the surviving non-temp files number at most
`SOURCE_CACHE_MAX_FILES` (when positive) and total at most
`SOURCE_CACHE_MAX_BYTES` (when positive); and every evicted non-temp file
is at least as old (by mtime) as every surviving non-temp file. -/
theorem prune_source_cache_spec (maxFiles maxBytes : ℕ) (cache : List CacheFile) :
    (0 < maxFiles →
      ((prune_source_cache maxFiles maxBytes cache).filter (fun f => !isTempFile f)).length
        ≤ maxFiles)
    ∧ (0 < maxBytes →
      ((((prune_source_cache maxFiles maxBytes cache).filter
          (fun f => !isTempFile f)).map (·.size)).sum ≤ maxBytes))
    ∧ (∀ f ∈ cache, isTempFile f = false →
        f ∉ prune_source_cache maxFiles maxBytes cache →
        ∀ g ∈ (prune_source_cache maxFiles maxBytes cache).filter (fun f => !isTempFile f),
          f.mtime ≤ g.mtime) := by
  by_cases hz : maxBytes = 0 ∧ maxFiles = 0
  · have hres : prune_source_cache maxFiles maxBytes cache = cache := by
      unfold prune_source_cache
      rw [if_pos hz]
    refine ⟨fun hf => absurd hz.2 (Nat.pos_iff_ne_zero.mp hf), ?_, ?_⟩
    · intro hb
      exact absurd hz.1 (Nat.pos_iff_ne_zero.mp hb)
    · intro f hf _ hnot
      rw [hres] at hnot
      exact absurd hf hnot
  · set le := fun (a b : CacheFile) => decide (a.mtime ≤ b.mtime) with hle
    set sorted := (cache.filter (fun f => !isTempFile f)).mergeSort le with hsorted
    have hres : prune_source_cache maxFiles maxBytes cache =
        cache.filter (fun f => isTempFile f) ++
          (pruneLoop maxFiles maxBytes sorted sorted.length ((sorted.map (·.size)).sum)).2 := by
      unfold prune_source_cache
      rw [if_neg hz]
    set kept := (pruneLoop maxFiles maxBytes sorted sorted.length ((sorted.map (·.size)).sum)).2
      with hkept
    set ev := (pruneLoop maxFiles maxBytes sorted sorted.length ((sorted.map (·.size)).sum)).1
      with hev
    obtain ⟨hsplit, hcount, hbytes⟩ := pruneLoop_spec maxFiles maxBytes sorted
    have hmemsorted : ∀ x ∈ sorted, x ∈ cache.filter (fun f => !isTempFile f) := by
      intro x hx
      exact ((cache.filter (fun f => !isTempFile f)).mergeSort_perm le).mem_iff.mp hx
    have hkeptnt : ∀ x ∈ kept, (!isTempFile x) = true := by
      intro x hx
      have hxs : x ∈ sorted := by
        rw [← hsplit]
        exact List.mem_append_right _ hx
      exact (List.mem_filter.mp (hmemsorted x hxs)).2
    have hfilter : (prune_source_cache maxFiles maxBytes cache).filter
        (fun f => !isTempFile f) = kept := by
      rw [hres, List.filter_append]
      have h1 : (cache.filter (fun f => isTempFile f)).filter (fun f => !isTempFile f) = [] := by
        rw [List.filter_filter]
        apply List.filter_eq_nil_iff.mpr
        intro a _
        cases h : isTempFile a <;> simp [h]
      have h2 : kept.filter (fun f => !isTempFile f) = kept :=
        List.filter_eq_self.mpr hkeptnt
      rw [h1, h2, List.nil_append]
    refine ⟨?_, ?_, ?_⟩
    · intro hf
      rw [hfilter]
      exact hcount hf
    · intro hb
      rw [hfilter]
      exact hbytes hb
    · intro f hf hnt hnot g hg
      rw [hfilter] at hg
      have hfs : f ∈ sorted := by
        have : f ∈ cache.filter (fun x => !isTempFile x) :=
          List.mem_filter.mpr ⟨hf, by rw [hnt]; rfl⟩
        exact ((cache.filter (fun x => !isTempFile x)).mergeSort_perm le).mem_iff.mpr this
      have hfev : f ∈ ev := by
        rw [← hsplit] at hfs
        rcases List.mem_append.mp hfs with h | h
        · exact h
        · exact absurd (by rw [hres]; exact List.mem_append_right _ h) hnot
      -- sortedness of the merge-sorted list
      have hpair : List.Pairwise (fun a b => le a b = true) sorted := by
        apply List.sorted_mergeSort
        · intro a b c hab hbc
          rw [hle] at hab hbc ⊢
          simp only [decide_eq_true_eq] at hab hbc ⊢
          exact le_trans hab hbc
        · intro a b
          rw [hle]
          simp only [Bool.or_eq_true, decide_eq_true_eq]
          exact le_total _ _
      rw [← hsplit] at hpair
      have := (List.pairwise_append.mp hpair).2.2 f hfev g hg
      rw [hle] at this
      simpa using this

/-- Witness for C4 with a two-file cache and a one-file cap. -/
theorem prune_source_cache_spec_witness :
    ((prune_source_cache 1 0
        [CacheFile.mk "a.wav" 10 100, CacheFile.mk "b.wav" 5 200]).filter
      (fun f => !isTempFile f)).length ≤ 1 :=
  (prune_source_cache_spec 1 0
    [CacheFile.mk "a.wav" 10 100, CacheFile.mk "b.wav" 5 200]).1 (by decide)

/-! ## Source staging (`main.stage_source_audio`) -/

/-- File lookup by name in the cache root (`cached_path.exists()` plus
`stat`). -/
def lookupCache (st : List CacheFile) (name : String) : Option CacheFile :=
  st.find? (fun f => f.name == name)

/-- `main.stage_source_audio` acting on the cache-root state.
`cacheName` is the content-addressed cache file name, `tempSuffix` the
`<pid>-<uuid>` part of the unique temp name, `downloadSize` the byte size
the download produces, `now` the mtime of freshly written files.  The
final `link_or_copy` to the workspace target is outside the cache root
and does not change this state. -/
def stage_source_audio (maxFiles maxBytes : ℕ) (st : List CacheFile)
    (cacheName tempSuffix : String) (downloadSize : ℕ) (now : ℤ) :
    List CacheFile × Except String Unit :=
  let tempName := cacheName ++ ".tmp-" ++ tempSuffix
  let cachedOk := match lookupCache st cacheName with
    | some c => decide (0 < c.size)
    | none => false
  if cachedOk then (st, .ok ())
  else
    let st1 := st.filter (fun f => !(f.name == tempName))
    let st2 := st1 ++ [CacheFile.mk tempName now downloadSize]
    if downloadSize = 0 then
      (st2.filter (fun f => !(f.name == tempName)), .error "Downloaded source audio is empty")
    else
      let st3 := st2.filter (fun f => !(f.name == tempName) && !(f.name == cacheName)) ++
        [CacheFile.mk cacheName now downloadSize]
      (prune_source_cache maxFiles maxBytes st3, .ok ())

lemma isPrefixOf_append_self (needle post : List Char) :
    needle.isPrefixOf (needle ++ post) = true :=
  List.isPrefixOf_iff_prefix.mpr (List.prefix_append _ _)

lemma hasSubstr_middle (pre needle post : List Char) :
    hasSubstr needle ((pre ++ needle) ++ post) = true := by
  induction pre with
  | nil =>
    simp only [List.nil_append]
    cases hnp : needle ++ post with
    | nil =>
      have hn : needle = [] := (List.append_eq_nil.mp hnp).1
      rw [hn]
      rfl
    | cons c rest =>
      rw [hasSubstr]
      have hpre : needle.isPrefixOf (c :: rest) = true := by
        rw [← hnp]
        exact isPrefixOf_append_self _ _
      rw [hpre, Bool.true_or]
  | cons c pre' ih =>
    simp only [List.cons_append]
    rw [hasSubstr]
    simp only [List.cons_append] at ih
    rw [ih, Bool.or_true]

lemma isTempName_of_temp (cacheName tempSuffix : String) :
    isTempName (cacheName ++ ".tmp-" ++ tempSuffix) = true := by
  unfold isTempName
  have : (cacheName ++ ".tmp-" ++ tempSuffix).toList =
      (cacheName.toList ++ ".tmp-".toList) ++ tempSuffix.toList := by
    simp [String.toList, String.data_append]
  rw [this]
  exact hasSubstr_middle _ _ _

lemma find?_filter_of_imp {α : Type} (p q : α → Bool) (l : List α)
    (h : ∀ x, p x = true → q x = true) :
    (l.filter q).find? p = l.find? p := by
  induction l with
  | nil => rfl
  | cons x xs ih =>
    cases hq : q x with
    | true =>
      rw [List.filter_cons_of_pos hq]
      cases hp : p x with
      | true => rw [List.find?_cons_of_pos _ hp, List.find?_cons_of_pos _ hp]
      | false => rw [List.find?_cons_of_neg _ (by rw [hp]; exact Bool.false_ne_true),
          List.find?_cons_of_neg _ (by rw [hp]; exact Bool.false_ne_true), ih]
    | false =>
      rw [List.filter_cons_of_neg (by rw [hq]; exact Bool.false_ne_true)]
      have hp : p x = false := by
        cases hpx : p x with
        | false => rfl
        | true => exact absurd (h x hpx) (by rw [hq]; exact Bool.false_ne_true)
      rw [List.find?_cons_of_neg _ (by rw [hp]; exact Bool.false_ne_true), ih]

/-- **C6.**  When the cache entry for the URL is absent or zero-sized and
the download produces a zero-byte file, `stage_source_audio` deletes the
temp file and fails with the empty-source error; the final cache path is
not created and the non-temp contents of the cache root are unchanged. -/
theorem stage_source_audio_empty_download_spec
    (maxFiles maxBytes : ℕ) (st : List CacheFile) (cacheName tempSuffix : String) (now : ℤ)
    (hnottemp : isTempName cacheName = false)
    (hcached : ∀ c ∈ st, c.name = cacheName → c.size = 0) :
    stage_source_audio maxFiles maxBytes st cacheName tempSuffix 0 now =
      (st.filter (fun f => !(f.name == cacheName ++ ".tmp-" ++ tempSuffix)),
        Except.error "Downloaded source audio is empty")
    ∧ (stage_source_audio maxFiles maxBytes st cacheName tempSuffix 0 now).1.filter
        (fun f => !isTempFile f) = st.filter (fun f => !isTempFile f)
    ∧ lookupCache (stage_source_audio maxFiles maxBytes st cacheName tempSuffix 0 now).1
        cacheName = lookupCache st cacheName := by
  have htempmark : isTempName (cacheName ++ ".tmp-" ++ tempSuffix) = true :=
    isTempName_of_temp cacheName tempSuffix
  have hnamene : (cacheName == cacheName ++ ".tmp-" ++ tempSuffix) = false := by
    cases hbe : cacheName == cacheName ++ ".tmp-" ++ tempSuffix with
    | false => rfl
    | true =>
      have : cacheName = cacheName ++ ".tmp-" ++ tempSuffix := by
        exact eq_of_beq hbe
      rw [← this] at htempmark
      rw [htempmark] at hnottemp
      cases hnottemp
  have hok : (match lookupCache st cacheName with
      | some c => decide (0 < c.size)
      | none => false) = false := by
    cases hl : lookupCache st cacheName with
    | none => rfl
    | some c =>
      have hc : c ∈ st := List.mem_of_find?_eq_some hl
      have hname : c.name = cacheName := by
        have := List.find?_some hl
        exact eq_of_beq this
      have hsz := hcached c hc hname
      simp [hsz]
  have hmain : stage_source_audio maxFiles maxBytes st cacheName tempSuffix 0 now =
      ((st.filter (fun f => !(f.name == cacheName ++ ".tmp-" ++ tempSuffix)) ++
          [CacheFile.mk (cacheName ++ ".tmp-" ++ tempSuffix) now 0]).filter
        (fun f => !(f.name == cacheName ++ ".tmp-" ++ tempSuffix)),
       Except.error "Downloaded source audio is empty") := by
    unfold stage_source_audio
    rw [hok]
    rfl
  have hstate : (st.filter (fun f => !(f.name == cacheName ++ ".tmp-" ++ tempSuffix)) ++
      [CacheFile.mk (cacheName ++ ".tmp-" ++ tempSuffix) now 0]).filter
        (fun f => !(f.name == cacheName ++ ".tmp-" ++ tempSuffix)) =
      st.filter (fun f => !(f.name == cacheName ++ ".tmp-" ++ tempSuffix)) := by
    rw [List.filter_append]
    have h1 : (st.filter (fun f => !(f.name == cacheName ++ ".tmp-" ++ tempSuffix))).filter
        (fun f => !(f.name == cacheName ++ ".tmp-" ++ tempSuffix)) =
        st.filter (fun f => !(f.name == cacheName ++ ".tmp-" ++ tempSuffix)) :=
      List.filter_eq_self.mpr (fun a ha => (List.mem_filter.mp ha).2)
    have h2 : ([CacheFile.mk (cacheName ++ ".tmp-" ++ tempSuffix) now 0]).filter
        (fun f => !(f.name == cacheName ++ ".tmp-" ++ tempSuffix)) = [] := by
      simp
    rw [h1, h2, List.append_nil]
  have hres : stage_source_audio maxFiles maxBytes st cacheName tempSuffix 0 now =
      (st.filter (fun f => !(f.name == cacheName ++ ".tmp-" ++ tempSuffix)),
       Except.error "Downloaded source audio is empty") := by
    rw [hmain, hstate]
  refine ⟨hres, ?_, ?_⟩
  · rw [hres]
    simp only []
    rw [List.filter_filter]
    apply List.filter_congr
    intro x _
    cases hx : isTempFile x with
    | true => simp
    | false =>
      have hxn : (x.name == cacheName ++ ".tmp-" ++ tempSuffix) = false := by
        cases hbe : x.name == cacheName ++ ".tmp-" ++ tempSuffix with
        | false => rfl
        | true =>
          have hxeq : x.name = cacheName ++ ".tmp-" ++ tempSuffix := eq_of_beq hbe
          have : isTempFile x = true := by
            unfold isTempFile
            rw [hxeq]
            exact htempmark
          rw [this] at hx
          cases hx
      simp [hxn]
  · rw [hres]
    simp only []
    unfold lookupCache
    apply find?_filter_of_imp
    intro x hx
    have hxeq : x.name = cacheName := eq_of_beq hx
    rw [hxeq, hnamene]
    rfl

/-- Witness for C6 at a one-entry cache holding a zero-sized entry. -/
theorem stage_source_audio_empty_download_spec_witness :
    isTempName "cafe.wav" = false
    ∧ stage_source_audio 300 2048 [CacheFile.mk "cafe.wav" 3 0] "cafe.wav" "7-beef" 0 11 =
      ([CacheFile.mk "cafe.wav" 3 0].filter
          (fun f => !(f.name == "cafe.wav" ++ ".tmp-" ++ "7-beef")),
        Except.error "Downloaded source audio is empty") :=
  ⟨by decide,
   (stage_source_audio_empty_download_spec 300 2048 [CacheFile.mk "cafe.wav" 3 0]
      "cafe.wav" "7-beef" 11 (by decide) (by decide)).1⟩

/-! ## Job engine (`main.create_job` / `main.execute_job`) -/

/-- The four job states. -/
inductive JobStatusVal where
  | queued | running | succeeded | failed
deriving DecidableEq

/-- `models.WorkerJobStatus` (artifacts abbreviated to their blob keys). -/
structure WorkerJobStatus where
  status : JobStatusVal
  model : String
  etaSec : Option ℤ
  progressPct : Option ℤ
  errorCode : Option String
  artifacts : List String
deriving DecidableEq

/-- `main.initial_model` with the environment defaults. -/
def initial_model (tool_type : String) : String :=
  if tool_type = "stem_isolation" then "UVR-MDX-NET-Inst_HQ_5.onnx"
  else if tool_type = "mastering" then "matchering_2_0"
  else if tool_type = "key_bpm" then "essentia"
  else if tool_type = "loudness_report" then "pyloudnorm"
  else "basic_pitch"

/-- The record `create_job` installs: queued, `etaSec=180`,
`progressPct=5`. -/
def create_job_status (tool_type : String) : WorkerJobStatus :=
  { status := .queued
    model := initial_model tool_type
    etaSec := some 180
    progressPct := some 5
    errorCode := none
    artifacts := [] }

/-- The mutation block of the `except` handler in `execute_job`:
`status=failed, progressPct=100, errorCode=str(exc)[:120]`. -/
def failUpdate (s : WorkerJobStatus) (msg : String) : WorkerJobStatus :=
  { s with status := .failed, progressPct := some 100, errorCode := some (msg.take 120) }

/-- The outcomes of the external steps of one `execute_job` run: whether
source staging succeeds, whether the tool run (including the stem timeout
fallback chain) produces a result, and whether the post-success steps
(the dataset capture and the succeeded-callback POST, both awaited inside
the `try`) raise. -/
structure ExecEnv where
  stagingOk : Bool
  processingOk : Bool
  postSuccessOk : Bool
  modelName : String
  artifacts : List String
  errorMessage : String

/-- The successive states of a job's status record during `execute_job`,
starting from the queued record.  Snapshots are taken at the `await`
boundaries of the coroutine: each contiguous block of field assignments
runs without suspension and is observed atomically by other asyncio
tasks.  The `running` callback is fire-and-forget (its failure is caught
and changes nothing), so it does not appear. -/
def executeJobStates (env : ExecEnv) (init : WorkerJobStatus) : List WorkerJobStatus :=
  let s1 := { init with status := .running, progressPct := some 20 }
  if !env.stagingOk then [init, s1, failUpdate s1 env.errorMessage]
  else
    let s2 := { s1 with progressPct := some 40 }
    if !env.processingOk then [init, s1, s2, failUpdate s2 env.errorMessage]
    else
      let s3 := { s2 with
        status := .succeeded
        model := env.modelName
        progressPct := some 100
        etaSec := some 0
        artifacts := env.artifacts }
      if !env.postSuccessOk then [init, s1, s2, s3, failUpdate s3 env.errorMessage]
      else [init, s1, s2, s3]

/-- The advancement relation of the claimed status machine
`queued → running → succeeded|failed`: a later observation is the same
state, or anything after queued, or a terminal state after running. -/
def statusLe (a b : JobStatusVal) : Bool :=
  a == b || a == .queued ||
    (a == .running && (b == .succeeded || b == .failed))

/-- The claimed invariant over a sequence of observed status records:
the status only advances along the machine, and a record observed in a
terminal state never changes again. -/
def StatusMonotoneStable (tr : List WorkerJobStatus) : Prop :=
  tr.Pairwise (fun s t => statusLe s.status t.status = true ∧
    ((s.status = .succeeded ∨ s.status = .failed) → s = t))

set_option maxRecDepth 8192 in
/-- **C1 (code bug).**  A `key_bpm` job whose dataset capture or
succeeded-callback POST raises after the record was set to `succeeded`:
the `except` handler then rewrites the terminal record to `failed` and
sets `errorCode`, so the trace contains a `succeeded` snapshot followed
by a different `failed` snapshot, violating the claimed invariant (which
the code's own spec asserts, since §7 says capture and callback failures
are swallowed). -/
theorem execute_job_violates_terminal_stability :
    executeJobStates
        (ExecEnv.mk true true false "essentia" ["key-bpm.json"] "capture failed")
        (create_job_status "key_bpm") =
      [create_job_status "key_bpm",
       { create_job_status "key_bpm" with status := .running, progressPct := some 20 },
       { create_job_status "key_bpm" with status := .running, progressPct := some 40 },
       { status := .succeeded, model := "essentia", etaSec := some 0,
         progressPct := some 100, errorCode := none, artifacts := ["key-bpm.json"] },
       { status := .failed, model := "essentia", etaSec := some 0,
         progressPct := some 100, errorCode := some "capture failed",
         artifacts := ["key-bpm.json"] }]
    ∧ ¬ StatusMonotoneStable
        (executeJobStates
          (ExecEnv.mk true true false "essentia" ["key-bpm.json"] "capture failed")
          (create_job_status "key_bpm")) := by
  constructor
  · rfl
  · unfold StatusMonotoneStable
    decide

/-- The in-process job registry: a heap of allocated status records (a
reference is an index) and the `job_statuses` dict mapping external job
ids to the record each id currently retrieves. -/
structure JobRegistry where
  heap : List WorkerJobStatus
  statusMap : List (String × ℕ)

/-- Dict read (`job_statuses.get(job_id)`). -/
def mapGet (m : List (String × ℕ)) (k : String) : Option ℕ :=
  (m.find? (fun p => p.1 == k)).map (·.2)

/-- Dict assignment (`job_statuses[job_id] = status`): the new binding
replaces any existing one. -/
def mapSet (m : List (String × ℕ)) (k : String) (v : ℕ) : List (String × ℕ) :=
  (k, v) :: m.filter (fun p => !(p.1 == k))

/-- Dereference a status-record reference. -/
def heapGet (reg : JobRegistry) (r : ℕ) : Option WorkerJobStatus := reg.heap[r]?

/-- A mutation of the record behind a reference (what a still-running
`execute_job` task does through the object it captured at start). -/
def heapSet (reg : JobRegistry) (r : ℕ) (s : WorkerJobStatus) : JobRegistry :=
  { reg with heap := reg.heap.set r s }

/-- `main.create_job`: allocate a fresh queued record, bind the job id to
it unconditionally, and return the new reference (the scheduled
`execute_job` task is modelled separately by `executeJobStates`). -/
def create_job (reg : JobRegistry) (jobId toolType : String) : JobRegistry × ℕ :=
  let ref := reg.heap.length
  ({ heap := reg.heap ++ [create_job_status toolType],
     statusMap := mapSet reg.statusMap jobId ref }, ref)

/-- **C10.**  Posting a job with an id that is already bound does not
fail: a fresh queued record (`status=queued, progressPct=5, etaSec=180`)
unconditionally replaces the binding, even while the prior record is
running or terminal; the prior record survives unchanged in the heap
under its old reference, and mutations through that old reference leave
the newly retrievable record untouched. -/
theorem create_job_replaces_existing_status (reg : JobRegistry) (jobId toolType : String)
    (oldRef : ℕ) (_hold : mapGet reg.statusMap jobId = some oldRef)
    (hwf : oldRef < reg.heap.length) :
    mapGet (create_job reg jobId toolType).1.statusMap jobId =
      some (create_job reg jobId toolType).2
    ∧ heapGet (create_job reg jobId toolType).1 (create_job reg jobId toolType).2 =
      some (create_job_status toolType)
    ∧ (create_job reg jobId toolType).2 ≠ oldRef
    ∧ heapGet (create_job reg jobId toolType).1 oldRef = heapGet reg oldRef
    ∧ ∀ s, mapGet (heapSet (create_job reg jobId toolType).1 oldRef s).statusMap jobId =
          some (create_job reg jobId toolType).2
        ∧ heapGet (heapSet (create_job reg jobId toolType).1 oldRef s)
            (create_job reg jobId toolType).2 = some (create_job_status toolType) := by
  refine ⟨?_, ?_, ?_, ?_, ?_⟩
  · simp [create_job, mapGet, mapSet]
  · simp [create_job, heapGet, List.getElem?_concat_length]
  · exact fun h => absurd (h ▸ hwf) (lt_irrefl _)
  · simp only [create_job, heapGet]
    rw [List.getElem?_append, if_pos hwf]
  · intro s
    refine ⟨by simp [create_job, heapSet, mapGet, mapSet], ?_⟩
    simp only [create_job, heapSet, heapGet]
    rw [List.getElem?_set_ne (Nat.ne_of_lt hwf)]
    exact List.getElem?_concat_length _ _

/-- Witness for C10: re-posting over a registry already holding a running
record for the same id. -/
theorem create_job_replaces_existing_status_witness :
    mapGet
      (create_job
        (JobRegistry.mk
          [{ status := .running, model := "essentia", etaSec := some 180,
             progressPct := some 20, errorCode := none, artifacts := [] }]
          [("job-1", 0)])
        "job-1" "key_bpm").1.statusMap "job-1" =
      some
        (create_job
          (JobRegistry.mk
            [{ status := .running, model := "essentia", etaSec := some 180,
               progressPct := some 20, errorCode := none, artifacts := [] }]
            [("job-1", 0)])
          "job-1" "key_bpm").2 :=
  (create_job_replaces_existing_status
    (JobRegistry.mk
      [{ status := .running, model := "essentia", etaSec := some 180,
         progressPct := some 20, errorCode := none, artifacts := [] }]
      [("job-1", 0)])
    "job-1" "key_bpm" 0 (by decide) (by decide)).1

/-! ## Dataset capture (`dataset.capture_training_sample`) -/

/-- A file handed to the capture step: its name and byte content. -/
structure SampleInput where
  name : String
  content : List ℕ
deriving DecidableEq

/-- The external hash library (`hashlib.sha256`): a digest for byte
contents and one for UTF-8 text. -/
structure Sha256Model where
  ofBytes : List ℕ → String
  ofText : String → String

/-- A name/path/sha256 triple as recorded in `metadata.json`. -/
structure FileRef where
  name : String
  path : String
  sha256 : String
deriving DecidableEq

/-- The `features` block (`_feature_summary`; all outputs exist after the
copies, so every output is counted). -/
structure FeatureSummary where
  inputSizeBytes : ℕ
  outputCount : ℕ
  outputSizeBytesTotal : ℕ
  outputSizeBytesAverage : ℕ
deriving DecidableEq

/-- The metadata record written to `metadata.json` and appended to the
manifest (the `captured_at` / retention timestamps are opaque strings
computed before any filesystem step). -/
structure SampleMetadata where
  sample_id : String
  job_id : String
  session_fingerprint : String
  tool_type : String
  capture_mode : String
  policy_version : String
  captured_at : String
  input : FileRef
  outputs : List FileRef
  output_count : ℕ
  features : FeatureSummary
deriving DecidableEq

/-- One filesystem step of `capture_training_sample`, in execution
order. -/
inductive CaptureEvent where
  | copyFile (name : String) (content : List ℕ)
  | writeMetadata (meta : SampleMetadata)
  | appendManifest (meta : SampleMetadata)
deriving DecidableEq

/-- `dataset.capture_training_sample`: copy the input, copy every output,
hash each copied file, then write `metadata.json` and append the same
record to `manifest.jsonl`.  Returns the ordered filesystem trace and
the metadata record (`shutil.copy2` preserves content, so hashing the
copy hashes the given content). -/
def capture_training_sample (h : Sha256Model)
    (sample_id session_salt source_session_id job_id tool_type policy_version captured_at :
      String)
    (input_file : SampleInput) (output_files : List SampleInput) :
    List CaptureEvent × SampleMetadata :=
  let session_fingerprint := h.ofText (session_salt ++ ":" ++ source_session_id)
  let input_hash := h.ofBytes input_file.content
  let output_manifest := output_files.map (fun f =>
    FileRef.mk f.name ("samples/" ++ sample_id ++ "/" ++ f.name) (h.ofBytes f.content))
  let features := FeatureSummary.mk input_file.content.length output_files.length
    ((output_files.map (fun f => f.content.length)).sum)
    (if output_files.length = 0 then 0
     else ((output_files.map (fun f => f.content.length)).sum) / output_files.length)
  let metadata := SampleMetadata.mk sample_id job_id session_fingerprint tool_type
    "implied_use" policy_version captured_at
    (FileRef.mk input_file.name ("samples/" ++ sample_id ++ "/" ++ input_file.name) input_hash)
    output_manifest output_manifest.length features
  ((CaptureEvent.copyFile input_file.name input_file.content ::
      output_files.map (fun f => CaptureEvent.copyFile f.name f.content)) ++
    [CaptureEvent.writeMetadata metadata, CaptureEvent.appendManifest metadata],
   metadata)

/-- Does an event write `metadata.json`? -/
def isMetadataWrite : CaptureEvent → Bool
  | .writeMetadata _ => true
  | _ => false

/-- Is an event a file copy? -/
def isCopyEvent : CaptureEvent → Bool
  | .copyFile _ _ => true
  | _ => false

/-- **C8.**  The capture trace is the input copy and all output copies
followed by the single metadata write (then the manifest append):
`metadata.json` is written exactly once, after every copied file — one
atomic write call — and the recorded SHA-256 of the input and of each
output equals the hash of that copied file's contents. -/
theorem capture_training_sample_spec (h : Sha256Model)
    (sample_id session_salt source_session_id job_id tool_type policy_version captured_at :
      String)
    (input_file : SampleInput) (output_files : List SampleInput) :
    (capture_training_sample h sample_id session_salt source_session_id job_id tool_type
        policy_version captured_at input_file output_files).1 =
      (CaptureEvent.copyFile input_file.name input_file.content ::
        output_files.map (fun f => CaptureEvent.copyFile f.name f.content)) ++
      [CaptureEvent.writeMetadata
        (capture_training_sample h sample_id session_salt source_session_id job_id tool_type
          policy_version captured_at input_file output_files).2,
       CaptureEvent.appendManifest
        (capture_training_sample h sample_id session_salt source_session_id job_id tool_type
          policy_version captured_at input_file output_files).2]
    ∧ ((capture_training_sample h sample_id session_salt source_session_id job_id tool_type
        policy_version captured_at input_file output_files).1.filter isMetadataWrite).length = 1
    ∧ (∀ i e, ((capture_training_sample h sample_id session_salt source_session_id job_id
          tool_type policy_version captured_at input_file output_files).1)[i]? = some e →
        isCopyEvent e = true → i < 1 + output_files.length)
    ∧ (capture_training_sample h sample_id session_salt source_session_id job_id tool_type
        policy_version captured_at input_file output_files).2.input.sha256 =
      h.ofBytes input_file.content
    ∧ (capture_training_sample h sample_id session_salt source_session_id job_id tool_type
        policy_version captured_at input_file output_files).2.outputs.map FileRef.sha256 =
      output_files.map (fun f => h.ofBytes f.content)
    ∧ (capture_training_sample h sample_id session_salt source_session_id job_id tool_type
        policy_version captured_at input_file output_files).2.outputs.map FileRef.name =
      output_files.map SampleInput.name := by
  refine ⟨rfl, ?_, ?_, rfl, ?_, ?_⟩
  · simp only [capture_training_sample, List.filter_append, List.filter_cons,
      List.filter_nil]
    have hcopies : (output_files.map
        (fun f => CaptureEvent.copyFile f.name f.content)).filter isMetadataWrite = [] := by
      apply List.filter_eq_nil_iff.mpr
      intro e he
      rcases List.mem_map.mp he with ⟨f, _, rfl⟩
      intro hmw
      cases hmw
    simp [hcopies, isMetadataWrite]
  · intro i e hget hcopy
    by_contra hge
    push_neg at hge
    -- beyond the copies, the trace holds only the metadata write and the
    -- manifest append, neither of which is a copy
    have hlen : (CaptureEvent.copyFile input_file.name input_file.content ::
        output_files.map (fun f => CaptureEvent.copyFile f.name f.content)).length =
        1 + output_files.length := by
      simp [Nat.add_comm]
    rw [show (capture_training_sample h sample_id session_salt source_session_id job_id
        tool_type policy_version captured_at input_file output_files).1 =
      (CaptureEvent.copyFile input_file.name input_file.content ::
        output_files.map (fun f => CaptureEvent.copyFile f.name f.content)) ++
      [CaptureEvent.writeMetadata _, CaptureEvent.appendManifest _] from rfl] at hget
    rw [List.getElem?_append, if_neg (by rw [hlen]; exact not_lt.mpr hge)] at hget
    rcases hi : i - (CaptureEvent.copyFile input_file.name input_file.content ::
        output_files.map (fun f => CaptureEvent.copyFile f.name f.content)).length with _ | j
    · rw [hi] at hget
      cases hget
      cases hcopy
    · rw [hi] at hget
      rcases j with _ | k
      · cases hget
        cases hcopy
      · rw [show (k + 1 + 1) = k + 2 from rfl] at hget
        simp at hget
  · simp [capture_training_sample]
  · simp [capture_training_sample]

/-! ## Training aggregator (`training_orchestrator`) -/

/-- A JSON value as produced by `json.loads`: Python keeps JSON integers
and decimal numbers as distinct types (`int` vs `float`), which matters
for the `isinstance` filters below. -/
inductive Json where
  | null
  | bool (b : Bool)
  | int (z : ℤ)
  | float (q : ℚ)
  | str (s : String)
  | arr (items : List Json)
  | obj (fields : List (String × Json))

/-- Python truthiness of a JSON-decoded value (`if not value`). -/
def jsonFalsy : Json → Bool
  | .null => true
  | .bool b => !b
  | .int z => z == 0
  | .float q => q == 0
  | .str s => s == ""
  | .arr l => l.isEmpty
  | .obj l => l.isEmpty

/-- `dict.get` on a JSON object (callers must establish the value is an
object before using this, as `row.get` raises on anything else). -/
def jsonGet (fields : List (String × Json)) (k : String) : Option Json :=
  (fields.find? (fun p => p.1 == k)).map (·.2)

/-- `training_orchestrator._parse_iso`, with `datetime.fromisoformat`
abstracted as an external parser from strings to timestamps (rational
seconds); parse failures (`ValueError`) are `none`.  A falsy value is
skipped; a truthy non-string has no `.replace`, so the call raises
`AttributeError` (modelled as `.error ()`) — only `ValueError` is caught
by the code. -/
def parse_iso (fromisoformat : String → Option ℚ) (value : Option Json) :
    Except Unit (Option ℚ) :=
  match value with
  | none => .ok none
  | some v =>
    if jsonFalsy v then .ok none
    else match v with
      | .str s => .ok (fromisoformat (s.replace "Z" "+00:00"))
      | _ => .error ()

/-- One line of `manifest.jsonl` after stripping and `json.loads`: blank,
undecodable (`JSONDecodeError`), or a decoded JSON value. -/
inductive RawLine where
  | blank
  | malformed
  | line (row : Json)

/-- The training window (timestamps in rational seconds). -/
structure TrainingWindow where
  start : ℚ
  stop : ℚ

/-- `training_orchestrator._load_manifest_rows`: skip blank and
undecodable lines, parse `captured_at`, skip rows without a parseable
timestamp or outside the window.  A row that is not a JSON object makes
`row.get` raise `AttributeError` (uncaught), and a truthy non-string
`captured_at` makes `_parse_iso` raise — both modelled as `.error ()`. -/
def load_manifest_rows (fromisoformat : String → Option ℚ) (lines : List RawLine)
    (window : TrainingWindow) : Except Unit (List Json) :=
  match lines with
  | [] => .ok []
  | .blank :: rest => load_manifest_rows fromisoformat rest window
  | .malformed :: rest => load_manifest_rows fromisoformat rest window
  | .line row :: rest =>
    match row with
    | .obj fields =>
      match parse_iso fromisoformat (jsonGet fields "captured_at") with
      | .error e => .error e
      | .ok none => load_manifest_rows fromisoformat rest window
      | .ok (some t) =>
        if t < window.start ∨ window.stop < t then
          load_manifest_rows fromisoformat rest window
        else
          (load_manifest_rows fromisoformat rest window).map (fun rows => row :: rows)
    | _ => .error ()

/-- `str(row.get("tool_type") or "")`, coarsened: a falsy or missing
value is `""`, a string is itself, and the `str()` of a truthy non-string
is summarized as a marker that never equals a real tool name (only
equality with the three fixed tool names is ever observed). -/
def toolTypeStr (fields : List (String × Json)) : String :=
  match jsonGet fields "tool_type" with
  | none => ""
  | some v => if jsonFalsy v then "" else
      match v with
      | .str s => s
      | _ => "<non-string tool_type>"

/-- The object fields of a row, when it is an object (rows produced by
`_load_manifest_rows`; `row.get("params", {})`). -/
def jsonObjFields : Json → List (String × Json)
  | .obj fields => fields
  | _ => []

/-- `isinstance(x, (int, float))` with `float(x)` conversion: Python
booleans are instances of `int`. -/
def pyNumeric : Json → Option ℚ
  | .int z => some (z : ℚ)
  | .float q => some q
  | .bool b => some (if b then 1 else 0)
  | _ => none

/-- `isinstance(x, int)` with int value: booleans included. -/
def pyIntLike : Json → Option ℤ
  | .int z => some z
  | .bool b => some (if b then 1 else 0)
  | _ => none

/-- `training_orchestrator._mode`: the first-seen value among those with
the maximal multiplicity (`Counter.most_common` breaks ties by insertion
order), or the fallback when empty. -/
def listMode (values : List String) (fallback : String) : String :=
  match values.find? (fun v => values.all (fun w => values.count w ≤ values.count v)) with
  | some v => v
  | none => fallback

/-- `training_orchestrator._avg`. -/
def listAvg (values : List ℚ) (fallback : ℚ) : ℚ :=
  if values.isEmpty then fallback else values.sum / values.length

/-- Python's bankers rounding of a rational to an integer. -/
def pyRoundInt (x : ℚ) : ℤ :=
  let f := ⌊x⌋
  let frac := x - f
  if frac < 1 / 2 then f
  else if 1 / 2 < frac then f + 1
  else if f % 2 = 0 then f else f + 1

/-- `round(x, ndigits)` on the exact rational value. -/
def pyRound (x : ℚ) (ndigits : ℕ) : ℚ :=
  (pyRoundInt (x * 10 ^ ndigits) : ℚ) / 10 ^ ndigits

/-- The mastering recommendation block. -/
structure MasteringRec where
  recommended_preset : String
  recommended_intensity : ℚ
  samples : ℕ
deriving DecidableEq

/-- The stem-isolation recommendation block. -/
structure StemRec where
  recommended_stems : ℤ
  recommended_variant : String
  samples : ℕ
deriving DecidableEq

/-- The MIDI recommendation block. -/
structure MidiRec where
  recommended_sensitivity : ℚ
  samples : ℕ
deriving DecidableEq

/-- The recommendations artifact body. -/
structure Recommendations where
  stem_isolation : StemRec
  mastering : MasteringRec
  midi_extract : MidiRec
deriving DecidableEq

/-- The `params` dict of a row, when it is a dict (`isinstance(params,
dict)` guard): otherwise no values are collected. -/
def rowParams (row : Json) : Option (List (String × Json)) :=
  match jsonGet (jsonObjFields row) "params" with
  | some (.obj fields) => some fields
  | _ => none

/-- `training_orchestrator._train_lightweight_recommenders` on the
selected rows. -/
def train_lightweight_recommenders (rows : List Json) : Recommendations :=
  let stem_rows := rows.filter (fun r => toolTypeStr (jsonObjFields r) == "stem_isolation")
  let stem_stems := stem_rows.filterMap (fun r =>
    (rowParams r).bind (fun params => (jsonGet params "stems").bind pyIntLike))
  let stem_variants := stem_rows.filterMap (fun r =>
    (rowParams r).bind (fun params =>
      match jsonGet params "fallbackModel" with
      | some (.str s) => some s
      | _ => none))
  let mastering_rows := rows.filter (fun r => toolTypeStr (jsonObjFields r) == "mastering")
  let mastering_presets := mastering_rows.filterMap (fun r =>
    (rowParams r).bind (fun params =>
      match jsonGet params "preset" with
      | some (.str s) => some s
      | _ => none))
  let mastering_intensities := mastering_rows.filterMap (fun r =>
    (rowParams r).bind (fun params => (jsonGet params "intensity").bind pyNumeric))
  let midi_rows := rows.filter (fun r => toolTypeStr (jsonObjFields r) == "midi_extract")
  let midi_sensitivities := midi_rows.filterMap (fun r =>
    (rowParams r).bind (fun params => (jsonGet params "sensitivity").bind pyNumeric))
  { stem_isolation :=
      { recommended_stems :=
          match stem_stems.find? (fun v => stem_stems.all
              (fun w => stem_stems.count w ≤ stem_stems.count v)) with
          | some v => v
          | none => 4
        recommended_variant := listMode stem_variants "mel_band_roformer"
        samples := stem_rows.length }
    mastering :=
      { recommended_preset := listMode mastering_presets "streaming_clean"
        recommended_intensity := pyRound (listAvg mastering_intensities 60.0) 2
        samples := mastering_rows.length }
    midi_extract :=
      { recommended_sensitivity := pyRound (listAvg midi_sensitivities 0.5) 3
        samples := midi_rows.length } }

/-- `training_orchestrator.run_training_cycle`: build the window
`now − 3600·max 1 window_hours .. now`, load the windowed rows, then
train; a loader crash propagates out of the cycle. -/
def run_training_cycle (fromisoformat : String → Option ℚ) (lines : List RawLine)
    (now : ℚ) (window_hours : ℤ) : Except Unit (ℕ × Recommendations) :=
  let start := now - 3600 * (max 1 window_hours : ℤ)
  (load_manifest_rows fromisoformat lines (TrainingWindow.mk start now)).map
    (fun rows => (rows.length, train_lightweight_recommenders rows))

/-- **C9 (code bug).**  A manifest containing the single decodable line
`[]` (valid JSON, but not an object — a malformed row in the claim's
terms): `_load_manifest_rows` calls `row.get` on it, which raises
`AttributeError` (only `json.JSONDecodeError` and `ValueError` are
caught), so the whole training cycle crashes instead of skipping the
row.  The same happens for any truthy non-string `captured_at`. -/
theorem run_training_cycle_crashes_on_malformed_row
    (fromisoformat : String → Option ℚ) (now : ℚ) (window_hours : ℤ) :
    run_training_cycle fromisoformat [RawLine.line (Json.arr [])] now window_hours =
      .error () := by
  rfl
